import Mathlib

/-!
Verification of the campaign eligibility and redemption engine of a
business directory / reservation platform.

The data model and the operations are translated from the Python source:
`app/routers/campaign.py` (`use_campaign`, `manually_assign_campaign`),
`app/routers/rule_engine.py` (`evaluate_campaign_rules`,
`assign_eligible_campaigns`, `create_progress_for_assignment`),
`app/utils.py` (`update_campaign_progress`),
`app/routers/reservation.py` (`create_reservation`) and
`app/routers/user.py` (`user_cancel_reservation`).

Timestamps are modelled as integers counting minutes (the code only ever
compares datetimes and adds minute/hour deltas), monetary amounts as
integers, and the SQLAlchemy session as an explicit record of tables
(lists of rows) threaded through each handler.  A handler that raises an
`HTTPException` before any write is modelled as returning an error with
the state unchanged; `db.commit()` corresponds to returning the updated
record.  Autoincremented primary keys are modelled with explicit
`next...Id` counters.
-/

namespace Mekankolik

/-- A campaign row (`models.Campaign`).  `allowed_business_ids` folds in the
`CampaignBusiness` mapping rows of the campaign (`campaign.allowed_businesses`);
`criteria_json` is the campaign's criteria dict as an association list. -/
structure Campaign where
  id : Nat
  is_active : Bool
  rule_type : String
  start_date : Int
  end_date : Int
  is_single_use : Bool
  usage_duration_minutes : Int
  criteria_json : List (String × Int)
  allowed_business_ids : List Nat
  deriving DecidableEq

/-- A campaign assignment row (`models.CampaignAssignment`). -/
structure CampaignAssignment where
  id : Nat
  user_id : Nat
  campaign_id : Nat
  is_used : Bool
  assigned_by_rule_engine : Bool
  qr_token : Option String
  qr_expires_at : Option Int
  deriving DecidableEq

/-- A campaign progress row (`models.CampaignProgress`). -/
structure CampaignProgress where
  assignment_id : Nat
  user_id : Nat
  campaign_id : Nat
  comments_made : Nat
  reservations_made : Nat
  businesses_visited : Nat
  total_spend : Int
  last_updated : Option Int
  deriving DecidableEq

/-- A rule evaluation log row (`models.RuleEvaluationLog`). -/
structure RuleEvaluationLog where
  user_id : Nat
  campaign_id : Nat
  rule_result : List (String × Bool)
  deriving DecidableEq

/-- A campaign usage row (`models.CampaignUsage`). -/
structure CampaignUsage where
  user_id : Nat
  assignment_id : Nat
  business_id : Nat
  used_at : Int
  deriving DecidableEq

/-- Reservation statuses (`ReservationStatus` in `app/schemas/reservation.py`,
referenced from `app/routers/user.py`). -/
inductive ReservationStatus where
  | pending
  | confirmed
  | cancelled
  | completed
  | rejected
  deriving DecidableEq

/-- A reservation row (`models.Reservation`). -/
structure Reservation where
  id : Nat
  user_id : Nat
  business_id : Nat
  reservation_time : Int
  number_of_people : Int
  status : ReservationStatus
  deriving DecidableEq

/-- A comment row (`models.Comment`), only as far as the rule engine's legacy
`min_comments` criterion counts it. -/
structure Comment where
  user_id : Nat
  business_id : Nat
  deriving DecidableEq

/-- A user row (`models.User`), only the fields the engine reads. -/
structure User where
  id : Nat
  is_admin : Bool
  rating : Option Int
  deriving DecidableEq

/-- The transactional storage session: one list of rows per table, plus
autoincrement counters for the primary keys the handlers mint. -/
structure DB where
  campaigns : List Campaign
  assignments : List CampaignAssignment
  progresses : List CampaignProgress
  logs : List RuleEvaluationLog
  usages : List CampaignUsage
  reservations : List Reservation
  comments : List Comment
  users : List User
  nextAssignmentId : Nat
  nextReservationId : Nat
  deriving DecidableEq

/-- The typed failures the handlers raise as `HTTPException`s, plus the
redemption failures of spec section 4.5. `internalError` stands for the
`AttributeError` a dangling foreign key would raise in Python. -/
inductive ApiError where
  | assignmentNotFound
  | alreadyUsed
  | campaignNotFound
  | userNotFound
  | duplicateAssignment
  | notAdmin
  | reservationNotFound
  | alreadyCancelled
  | cannotCancelStatus
  | tooLateToCancel
  | invalidReservation
  | tokenNotFound
  | tokenExpired
  | businessNotAllowed
  | internalError
  deriving DecidableEq

/-- Replace the first element satisfying `q` by `x`; the identity when no
element satisfies `q`.  Models an in-place SQLAlchemy row mutation. -/
def replaceFirst {α : Type} (q : α → Bool) (x : α) : List α → List α
  | [] => []
  | y :: ys => if q y then x :: ys else y :: replaceFirst q x ys

/-- Look a campaign up by primary key. -/
def findCampaign (campaigns : List Campaign) (cid : Nat) : Option Campaign :=
  campaigns.find? (fun c => c.id == cid)

/-- Look a progress row up by its `assignment_id` foreign key. -/
def findProgress (ps : List CampaignProgress) (aid : Nat) : Option CampaignProgress :=
  ps.find? (fun p => p.assignment_id == aid)

/-- A fresh `models.CampaignProgress(assignment_id=..., user_id=...,
campaign_id=...)` row.  Modelled from the spec: the column defaults of the
counters live in `models.py`, which is not part of the sources here; the spec
(section 3 and Scenario A) fixes them at 0 with no `last_updated` yet. -/
def freshProgress (aid uid cid : Nat) : CampaignProgress :=
  { assignment_id := aid, user_id := uid, campaign_id := cid,
    comments_made := 0, reservations_made := 0, businesses_visited := 0,
    total_spend := 0, last_updated := none }

/-- `use_campaign` (`app/routers/campaign.py`, the `requestToken` operation):
look the assignment up by id and requesting user; 404 when absent; 400 when
the campaign is single-use and the assignment already used; when a token is
present (Python truthiness: non-empty) with an expiry strictly in the future,
return it unchanged; otherwise mint `freshToken`, set the expiry to
`now + usage_duration_minutes` and commit. -/
def use_campaign (db : DB) (assignment_id : Nat) (u : User) (now : Int)
    (freshToken : String) : Except ApiError ((String × Int) × DB) :=
  match db.assignments.find? (fun a => a.id == assignment_id && a.user_id == u.id) with
  | none => .error .assignmentNotFound
  | some a =>
    match findCampaign db.campaigns a.campaign_id with
    | none => .error .internalError
    | some c =>
      if c.is_single_use && a.is_used then .error .alreadyUsed
      else
        match a.qr_token, a.qr_expires_at with
        | some t, some e =>
          if t ≠ "" ∧ now < e then .ok ((t, e), db)
          else
            let e' := now + c.usage_duration_minutes
            let a' := { a with qr_token := some freshToken, qr_expires_at := some e' }
            .ok ((freshToken, e'),
              { db with assignments := replaceFirst (fun x => x.id == a.id) a' db.assignments })
        | _, _ =>
          let e' := now + c.usage_duration_minutes
          let a' := { a with qr_token := some freshToken, qr_expires_at := some e' }
          .ok ((freshToken, e'),
            { db with assignments := replaceFirst (fun x => x.id == a.id) a' db.assignments })

/-- The `rule_type == "dynamic" and is_active` filter of
`assign_eligible_campaigns`' opening query. -/
def eligibleB (c : Campaign) : Bool :=
  c.rule_type == "dynamic" && c.is_active

/-- The assignment row `assign_eligible_campaigns` inserts. -/
def sweepAssignment (u : User) (aid : Nat) (c : Campaign) : CampaignAssignment :=
  { id := aid, user_id := u.id, campaign_id := c.id, is_used := false,
    assigned_by_rule_engine := true, qr_token := none, qr_expires_at := none }

/-- The session after `assign_eligible_campaigns`' creation branch for one
campaign: the new assignment, its progress row and an empty
`RuleEvaluationLog` entry. -/
def sweepCreate (u : User) (db : DB) (c : Campaign) : DB :=
  { db with
    assignments := db.assignments ++ [sweepAssignment u db.nextAssignmentId c],
    progresses := db.progresses ++ [freshProgress db.nextAssignmentId u.id c.id],
    logs := db.logs ++ [{ user_id := u.id, campaign_id := c.id, rule_result := [] }],
    nextAssignmentId := db.nextAssignmentId + 1 }

/-- One iteration of `assign_eligible_campaigns`' loop body, for one campaign
of the `rule_type == "dynamic" and is_active` query result: if no assignment
for (user, campaign) is visible in the session, run the creation branch. -/
def sweep_step (u : User) (db : DB) (c : Campaign) : DB :=
  if eligibleB c then
    if (db.assignments.find? (fun a => a.user_id == u.id && a.campaign_id == c.id)).isSome
    then db
    else sweepCreate u db c
  else db

/-- `assign_eligible_campaigns` (`app/routers/rule_engine.py`, the
`sweepAndAssign` operation): run the loop body over every campaign, threading
the session (SQLAlchemy autoflush makes rows added earlier in the loop visible
to the later existence queries). -/
def assign_eligible_campaigns (u : User) (db : DB) : DB :=
  db.campaigns.foldl (sweep_step u) db

/-- `create_progress_for_assignment` (`app/routers/rule_engine.py`): add a
fresh progress row unless one already exists for the assignment. -/
def create_progress_for_assignment (a : CampaignAssignment) (db : DB) : DB :=
  match findProgress db.progresses a.id with
  | some _ => db
  | none => { db with progresses := db.progresses ++ [freshProgress a.id a.user_id a.campaign_id] }

/-- The assignment row `manually_assign_campaign` inserts. -/
def manualAssignment (db : DB) (campaign_id user_id : Nat) : CampaignAssignment :=
  { id := db.nextAssignmentId, user_id := user_id, campaign_id := campaign_id, is_used := false,
    assigned_by_rule_engine := false, qr_token := none, qr_expires_at := none }

/-- `manually_assign_campaign` (`app/routers/campaign.py`, the `manualAssign`
operation): admin-only; 404 when the campaign or the user id is invalid; 400
when the (user, campaign) assignment already exists; otherwise create the
assignment (`assigned_by_rule_engine=False`) and its progress row. -/
def manually_assign_campaign (db : DB) (campaign_id user_id : Nat) (current_user : User) :
    Except ApiError (Nat × DB) :=
  if !current_user.is_admin then .error .notAdmin
  else
    match findCampaign db.campaigns campaign_id with
    | none => .error .campaignNotFound
    | some _ =>
      match db.users.find? (fun x => x.id == user_id) with
      | none => .error .userNotFound
      | some _ =>
        if (db.assignments.find? (fun a => a.user_id == user_id && a.campaign_id == campaign_id)).isSome
        then .error .duplicateAssignment
        else
          let aid := db.nextAssignmentId
          let a := manualAssignment db campaign_id user_id
          let db1 := { db with assignments := db.assignments ++ [a], nextAssignmentId := aid + 1 }
          .ok (aid, create_progress_for_assignment a db1)

/-- The filter of `update_campaign_progress`' opening query: assignments of
the user, not used, joined to a currently active campaign whose validity
window contains now (the join drops an assignment whose campaign is gone). -/
def is_active_assignment (campaigns : List Campaign) (now : Int) (user_id : Nat)
    (a : CampaignAssignment) : Bool :=
  a.user_id == user_id && a.is_used == false &&
    (match findCampaign campaigns a.campaign_id with
     | some c => c.is_active && decide (c.start_date ≤ now) && decide (c.end_date ≥ now)
     | none => false)

/-- The per-row mutation of `update_campaign_progress`: the `action_type`
dispatch followed by the unconditional `last_updated` write.  The
`models.Reservation.id != None` clause of the previous-reservation query is
`IS NOT NULL` in SQL and holds of every persisted row, so it adds nothing to
the filter. -/
def apply_action (reservations : List Reservation) (user_id : Nat) (action_type : String)
    (business_id : Option Nat) (amount : Option Int) (now : Int)
    (p : CampaignProgress) : CampaignProgress :=
  let p1 :=
    if action_type == "comment" then
      { p with comments_made := p.comments_made + 1 }
    else if action_type == "reservation" then
      let p' := { p with reservations_made := p.reservations_made + 1 }
      match business_id with
      | some bid =>
        if (reservations.find? (fun r => r.user_id == user_id && r.business_id == bid)).isSome
        then p'
        else { p' with businesses_visited := p'.businesses_visited + 1 }
      | none => p'
    else if action_type == "purchase" then
      match amount with
      | some amt => { p with total_spend := p.total_spend + amt }
      | none => p
    else p
  { p1 with last_updated := some now }

/-- One iteration of `update_campaign_progress`' loop body: load the progress
row of the assignment, lazily creating it when missing, and mutate it. -/
def progress_step (reservations : List Reservation) (user_id : Nat) (action_type : String)
    (business_id : Option Nat) (amount : Option Int) (now : Int)
    (ps : List CampaignProgress) (a : CampaignAssignment) : List CampaignProgress :=
  match findProgress ps a.id with
  | some p =>
    replaceFirst (fun x => x.assignment_id == a.id)
      (apply_action reservations user_id action_type business_id amount now p) ps
  | none =>
    ps ++ [apply_action reservations user_id action_type business_id amount now
      (freshProgress a.id user_id a.campaign_id)]

/-- `update_campaign_progress` (`app/utils.py`, the `recordEvent` operation):
run the loop body over every matching active assignment and commit once.  The
keyword arguments of the Python function are modelled as the two optionals. -/
def update_campaign_progress (db : DB) (user_id : Nat) (action_type : String)
    (business_id : Option Nat) (amount : Option Int) (now : Int) : DB :=
  let active := db.assignments.filter (is_active_assignment db.campaigns now user_id)
  let step := progress_step db.reservations user_id action_type business_id amount now
  { db with progresses := active.foldl step db.progresses }

/-- `create_reservation` (`app/routers/reservation.py`): validate, insert and
commit the reservation, then call `update_campaign_progress` with action
`"reservation"` and the reservation's business.  The activity log write that
follows touches no engine state and is not modelled. -/
def create_reservation (db : DB) (u : User) (business_id : Nat) (reservation_time : Int)
    (number_of_people : Int) (status : Option ReservationStatus) (now : Int) :
    Except ApiError (Reservation × DB) :=
  if number_of_people ≤ 0 then .error .invalidReservation
  else if number_of_people > 20 then .error .invalidReservation
  else if reservation_time ≤ now then .error .invalidReservation
  else
    let r : Reservation :=
      { id := db.nextReservationId, user_id := u.id, business_id := business_id,
        reservation_time := reservation_time, number_of_people := number_of_people,
        status := status.getD .pending }
    let db1 := { db with reservations := db.reservations ++ [r],
                         nextReservationId := db.nextReservationId + 1 }
    .ok (r, update_campaign_progress db1 u.id "reservation" (some business_id) none now)

/-- The criteria lookup `key in criteria` / `criteria[key]` on the campaign's
criteria dict. -/
def criteriaGet (criteria : List (String × Int)) (key : String) : Option Int :=
  (criteria.find? (fun kv => kv.1 == key)).map (fun kv => kv.2)

/-- Append one entry to the results dict when `key` is present in the
criteria dict, mirroring one `if key in criteria:` block of
`evaluate_campaign_rules`. -/
def addCriterion (criteria : List (String × Int)) (res : List (String × Bool))
    (key : String) (test : Int → Bool) : List (String × Bool) :=
  match criteriaGet criteria key with
  | some t => res ++ [(key, test t)]
  | none => res

/-- `evaluate_campaign_rules` (`app/routers/rule_engine.py`, the `evaluate`
operation).  It is read-only in the source (queries, no `db.add`/`commit`),
so its embedding returns only the results dict. -/
def evaluate_campaign_rules (u : User) (c : Campaign) (db : DB) : List (String × Bool) :=
  let criteria := c.criteria_json
  match db.assignments.find? (fun a => a.user_id == u.id && a.campaign_id == c.id) with
  | none => criteria.map (fun kv => (kv.1, false))
  | some a =>
    match findProgress db.progresses a.id with
    | none => criteria.map (fun kv => (kv.1, false))
    | some progress =>
      let r1 := addCriterion criteria [] "min_comments_after_assignment"
        (fun t => decide ((progress.comments_made : Int) ≥ t))
      let r2 := addCriterion criteria r1 "min_reservations_after_assignment"
        (fun t => decide ((progress.reservations_made : Int) ≥ t))
      let r3 := addCriterion criteria r2 "min_businesses_visited"
        (fun t => decide ((progress.businesses_visited : Int) ≥ t))
      let r4 := addCriterion criteria r3 "min_spend_after_assignment"
        (fun t => decide (progress.total_spend ≥ t))
      let r5 := addCriterion criteria r4 "min_rating"
        (fun t => match u.rating with
                  | some rt => decide (rt ≥ t)
                  | none => false)
      let r6 := addCriterion criteria r5 "min_reservations"
        (fun t => decide (((db.reservations.filter (fun r => r.user_id == u.id)).length : Int) ≥ t))
      addCriterion criteria r6 "min_comments"
        (fun t => decide (((db.comments.filter (fun x => x.user_id == u.id)).length : Int) ≥ t))

/-- `user_cancel_reservation` (`app/routers/user.py`): look the reservation up
by id and owner; reject already-cancelled, completed and rejected statuses;
reject when `reservation_time - 1 hour <= now`; otherwise set the status to
cancelled and commit. -/
def user_cancel_reservation (db : DB) (reservation_id : Nat) (u : User) (now : Int) :
    Except ApiError DB :=
  match db.reservations.find? (fun r => r.id == reservation_id && r.user_id == u.id) with
  | none => .error .reservationNotFound
  | some r =>
    if r.status = .cancelled then .error .alreadyCancelled
    else if r.status = .completed ∨ r.status = .rejected then .error .cannotCancelStatus
    else if r.reservation_time - 60 ≤ now then .error .tooLateToCancel
    else
      let r' := { r with status := .cancelled }
      let rs := replaceFirst (fun x => x.id == reservation_id && x.user_id == u.id) r' db.reservations
      .ok { db with reservations := rs }

/-- Modelled from the spec: the repository exposes no business-side redemption
endpoint under its sources — spec section 4.5 names `consumeToken(token,
businessId)` as invoked by an external redemption collaborator (a business
scanner).  Following the spec's words: fail `TokenNotFound` when no assignment
holds the token; fail `TokenExpired` when now is past `qr_expires_at` (a
holder without an expiry is treated as expired); fail `BusinessNotAllowed`
when `allowed_business_ids` is non-empty and misses the business; otherwise
record a `CampaignUsage` row and, for a single-use campaign, set the
assignment's `is_used` to true. -/
def consume_token (db : DB) (token : String) (business_id : Nat) (now : Int) :
    Except ApiError DB :=
  match db.assignments.find? (fun a => a.qr_token == some token) with
  | none => .error .tokenNotFound
  | some a =>
    match findCampaign db.campaigns a.campaign_id with
    | none => .error .internalError
    | some c =>
      let expired := match a.qr_expires_at with
                     | some e => decide (now > e)
                     | none => true
      if expired then .error .tokenExpired
      else if c.allowed_business_ids ≠ [] ∧ business_id ∉ c.allowed_business_ids then
        .error .businessNotAllowed
      else
        let usage : CampaignUsage :=
          { user_id := a.user_id, assignment_id := a.id, business_id := business_id,
            used_at := now }
        let db1 := { db with usages := db.usages ++ [usage] }
        let a' := { a with is_used := true }
        let as1 := replaceFirst (fun x => x.id == a.id) a' db1.assignments
        .ok (if c.is_single_use then { db1 with assignments := as1 } else db1)

/-- Assignments of the (user, campaign) pair, as counted by the uniqueness
invariant of spec section 3. -/
def countPair (as : List CampaignAssignment) (uid cid : Nat) : Nat :=
  (as.filter (fun a => a.user_id == uid && a.campaign_id == cid)).length

/-- The session after `manually_assign_campaign`'s success path: the new
assignment and its progress row, in the same transaction. -/
def manualAssignedDB (db : DB) (campaign_id user_id : Nat) : DB :=
  { db with assignments := db.assignments ++ [manualAssignment db campaign_id user_id],
            progresses := db.progresses ++ [freshProgress db.nextAssignmentId user_id campaign_id],
            nextAssignmentId := db.nextAssignmentId + 1 }

/-! ### Concrete fixtures for the witness theorems -/

/-- An active dynamic single-use campaign, usage duration 10 minutes,
validity window 0..1000, one criterion, unrestricted businesses. -/
def exCampaign : Campaign :=
  { id := 1, is_active := true, rule_type := "dynamic", start_date := 0, end_date := 1000,
    is_single_use := true, usage_duration_minutes := 10,
    criteria_json := [("min_comments_after_assignment", 3)], allowed_business_ids := [] }

def exUser : User := { id := 1, is_admin := false, rating := none }

def exAdmin : User := { id := 9, is_admin := true, rating := none }

def exAssignment : CampaignAssignment :=
  { id := 1, user_id := 1, campaign_id := 1, is_used := false,
    assigned_by_rule_engine := true, qr_token := none, qr_expires_at := none }

def exUsedAssignment : CampaignAssignment := { exAssignment with is_used := true }

def exTokenAssignment : CampaignAssignment :=
  { exAssignment with qr_token := some "tok", qr_expires_at := some 60 }

def exProgress : CampaignProgress := freshProgress 1 1 1

def exDB : DB :=
  { campaigns := [exCampaign], assignments := [exAssignment], progresses := [exProgress],
    logs := [], usages := [], reservations := [], comments := [], users := [exUser],
    nextAssignmentId := 2, nextReservationId := 1 }

def exDBtok : DB := { exDB with assignments := [exTokenAssignment] }

def exDBused : DB := { exDB with assignments := [exUsedAssignment] }

def exDBempty : DB := { exDB with assignments := [], progresses := [], nextAssignmentId := 1 }

def exReservation61 : Reservation :=
  { id := 1, user_id := 1, business_id := 5, reservation_time := 61, number_of_people := 2,
    status := .pending }

def exReservation59 : Reservation := { exReservation61 with reservation_time := 59 }

def exDBr61 : DB := { exDB with reservations := [exReservation61] }

def exDBr59 : DB := { exDB with reservations := [exReservation59] }

/-! ### Generic list lemmas -/

lemma find?_append_none {α : Type} {p : α → Bool} {l1 l2 : List α} (h : l1.find? p = none) :
    (l1 ++ l2).find? p = l2.find? p := by
  induction l1 with
  | nil => rfl
  | cons x xs ih =>
    rw [List.find?_eq_none] at h
    have hx : p x = false := by
      have := h x (List.mem_cons_self x xs)
      simp only [Bool.not_eq_true] at this
      exact this
    rw [List.cons_append, List.find?_cons_of_neg _ (by simp [hx])]
    exact ih (List.find?_eq_none.mpr (fun y hy => h y (List.mem_cons_of_mem _ hy)))

lemma find?_replaceFirst_of_neg {α : Type} (q : α → Bool) (x : α) (p : α → Bool) (l : List α)
    (hx : p x = false) (hq : ∀ y, q y = true → p y = false) :
    (replaceFirst q x l).find? p = l.find? p := by
  induction l with
  | nil => rfl
  | cons y ys ih =>
    by_cases hy : q y = true
    · simp only [replaceFirst, hy, if_true]
      rw [List.find?_cons_of_neg _ (by simp [hx]), List.find?_cons_of_neg _ (by simp [hq y hy])]
    · simp only [replaceFirst, hy, if_false, Bool.false_eq_true]
      by_cases hpy : p y = true
      · rw [List.find?_cons_of_pos _ hpy, List.find?_cons_of_pos _ hpy]
      · have hpy' : p y = false := by simpa using hpy
        rw [List.find?_cons_of_neg _ (by simp [hpy']), List.find?_cons_of_neg _ (by simp [hpy'])]
        exact ih

lemma find?_replaceFirst_self {α : Type} (q : α → Bool) (x : α) (l : List α)
    (hqx : q x = true) (h : (l.find? q).isSome) :
    (replaceFirst q x l).find? q = some x := by
  induction l with
  | nil => simp [List.find?] at h
  | cons y ys ih =>
    by_cases hy : q y = true
    · simp only [replaceFirst, hy, if_true]
      rw [List.find?_cons_of_pos _ hqx]
    · simp only [replaceFirst, hy, if_false, Bool.false_eq_true]
      have hy' : q y = false := by simpa using hy
      rw [List.find?_cons_of_neg _ (by simp [hy'])]
      rw [List.find?_cons_of_neg _ (by simp [hy'])] at h
      exact ih h

lemma mem_replaceFirst_self {α : Type} (q : α → Bool) (x : α) (l : List α)
    (h : ∃ y ∈ l, q y = true) : x ∈ replaceFirst q x l := by
  induction l with
  | nil => simp at h
  | cons y ys ih =>
    by_cases hy : q y = true
    · simp [replaceFirst, hy]
    · simp only [replaceFirst, hy, if_false, Bool.false_eq_true]
      rcases h with ⟨z, hz, hqz⟩
      rcases List.mem_cons.mp hz with rfl | hz'
      · exact absurd hqz hy
      · exact List.mem_cons_of_mem _ (ih ⟨z, hz', hqz⟩)

/-! ### `countPair` lemmas -/

lemma countPair_nil (uid cid : Nat) : countPair [] uid cid = 0 := rfl

lemma countPair_append (xs ys : List CampaignAssignment) (uid cid : Nat) :
    countPair (xs ++ ys) uid cid = countPair xs uid cid + countPair ys uid cid := by
  simp [countPair, List.filter_append]

lemma countPair_eq_zero_iff (as : List CampaignAssignment) (uid cid : Nat) :
    countPair as uid cid = 0 ↔ ∀ a ∈ as, ¬(a.user_id = uid ∧ a.campaign_id = cid) := by
  simp only [countPair, List.length_eq_zero, List.filter_eq_nil_iff]
  constructor
  · intro h a ha hc
    exact h a ha (by simp [hc.1, hc.2])
  · intro h a ha hp
    simp only [Bool.and_eq_true, beq_iff_eq] at hp
    exact h a ha hp

lemma pairFind_none_iff (as : List CampaignAssignment) (uid cid : Nat) :
    as.find? (fun a => a.user_id == uid && a.campaign_id == cid) = none ↔
      countPair as uid cid = 0 := by
  rw [List.find?_eq_none, countPair_eq_zero_iff]
  constructor
  · intro h a ha hc
    exact h a ha (by simp [hc.1, hc.2])
  · intro h a ha hp
    simp only [Bool.and_eq_true, beq_iff_eq] at hp
    exact h a ha hp

lemma pairFind_isSome_iff (as : List CampaignAssignment) (uid cid : Nat) :
    (as.find? (fun a => a.user_id == uid && a.campaign_id == cid)).isSome = true ↔
      countPair as uid cid ≠ 0 := by
  rw [Ne, ← pairFind_none_iff, Option.isSome_iff_ne_none]

lemma find?_append_some {α : Type} {p : α → Bool} {l1 l2 : List α} {x : α}
    (h : l1.find? p = some x) : (l1 ++ l2).find? p = some x := by
  induction l1 with
  | nil => simp [List.find?] at h
  | cons y ys ih =>
    by_cases hy : p y = true
    · rw [List.find?_cons_of_pos _ hy] at h
      rw [List.cons_append, List.find?_cons_of_pos _ hy]
      exact h
    · have hy' : p y = false := by simpa using hy
      rw [List.find?_cons_of_neg _ (by simp [hy'])] at h
      rw [List.cons_append, List.find?_cons_of_neg _ (by simp [hy'])]
      exact ih h

/-! ### `apply_action` computation lemmas -/

lemma apply_action_assignment_id (rs : List Reservation) (uid : Nat) (act : String)
    (bid : Option Nat) (am : Option Int) (now : Int) (p : CampaignProgress) :
    (apply_action rs uid act bid am now p).assignment_id = p.assignment_id := by
  unfold apply_action
  dsimp only
  repeat' split
  all_goals rfl

lemma apply_action_comment (rs : List Reservation) (uid : Nat) (bid : Option Nat)
    (am : Option Int) (now : Int) (p : CampaignProgress) :
    apply_action rs uid "comment" bid am now p =
      { p with comments_made := p.comments_made + 1, last_updated := some now } := rfl

lemma apply_action_purchase_amount (rs : List Reservation) (uid : Nat) (bid : Option Nat)
    (amt : Int) (now : Int) (p : CampaignProgress) :
    apply_action rs uid "purchase" bid (some amt) now p =
      { p with total_spend := p.total_spend + amt, last_updated := some now } := rfl

lemma apply_action_purchase_no_amount (rs : List Reservation) (uid : Nat) (bid : Option Nat)
    (now : Int) (p : CampaignProgress) :
    apply_action rs uid "purchase" bid none now p = { p with last_updated := some now } := rfl

lemma apply_action_unrecognized (rs : List Reservation) (uid : Nat) (act : String)
    (bid : Option Nat) (am : Option Int) (now : Int) (p : CampaignProgress)
    (h1 : act ≠ "comment") (h2 : act ≠ "reservation") (h3 : act ≠ "purchase") :
    apply_action rs uid act bid am now p = { p with last_updated := some now } := by
  unfold apply_action
  rw [show (act == "comment") = false from beq_eq_false_iff_ne.mpr h1,
      show (act == "reservation") = false from beq_eq_false_iff_ne.mpr h2,
      show (act == "purchase") = false from beq_eq_false_iff_ne.mpr h3]
  simp

/-! ### Progress-loop lemmas -/

lemma findProgress_append_of_ne (ps : List CampaignProgress) (x : CampaignProgress) (k : Nat)
    (h : x.assignment_id ≠ k) : findProgress (ps ++ [x]) k = findProgress ps k := by
  cases hf : findProgress ps k with
  | some p => exact find?_append_some hf
  | none =>
    rw [findProgress] at hf ⊢
    rw [find?_append_none hf]
    simp [List.find?, beq_eq_false_iff_ne.mpr h]

lemma progress_step_find_other (rs : List Reservation) (uid : Nat) (act : String)
    (bid : Option Nat) (am : Option Int) (now : Int) (ps : List CampaignProgress)
    (a : CampaignAssignment) (k : Nat) (hk : a.id ≠ k) :
    findProgress (progress_step rs uid act bid am now ps a) k = findProgress ps k := by
  unfold progress_step
  cases h : findProgress ps a.id with
  | some p =>
    dsimp only
    have hpa : p.assignment_id = a.id := by simpa using List.find?_some h
    apply find?_replaceFirst_of_neg
    · simp [apply_action_assignment_id, hpa, hk]
    · intro y hy
      have : y.assignment_id = a.id := by simpa using hy
      simp [this, hk]
  | none =>
    dsimp only
    exact findProgress_append_of_ne _ _ _ (by simp [apply_action_assignment_id, freshProgress, hk])

lemma progress_step_find_self (rs : List Reservation) (uid : Nat) (act : String)
    (bid : Option Nat) (am : Option Int) (now : Int) (ps : List CampaignProgress)
    (a : CampaignAssignment) (p : CampaignProgress) (hp : findProgress ps a.id = some p) :
    findProgress (progress_step rs uid act bid am now ps a) a.id =
      some (apply_action rs uid act bid am now p) := by
  unfold progress_step
  rw [hp]
  dsimp only
  have hpa : p.assignment_id = a.id := by simpa using List.find?_some hp
  apply find?_replaceFirst_self
  · simp [apply_action_assignment_id, hpa]
  · rw [findProgress] at hp
    rw [hp]
    rfl

lemma progress_fold_find_untouched (rs : List Reservation) (uid : Nat) (act : String)
    (bid : Option Nat) (am : Option Int) (now : Int) (as : List CampaignAssignment)
    (ps : List CampaignProgress) (k : Nat) (h : ∀ a ∈ as, a.id ≠ k) :
    findProgress (as.foldl (progress_step rs uid act bid am now) ps) k = findProgress ps k := by
  induction as generalizing ps with
  | nil => rfl
  | cons b bs ih =>
    rw [List.foldl_cons, ih _ (fun a ha => h a (List.mem_cons_of_mem _ ha))]
    exact progress_step_find_other _ _ _ _ _ _ _ _ _ (h b (List.mem_cons_self b bs))

lemma progress_fold_find_touched (rs : List Reservation) (uid : Nat) (act : String)
    (bid : Option Nat) (am : Option Int) (now : Int) (as : List CampaignAssignment)
    (ps : List CampaignProgress) (hnd : (as.map (fun a => a.id)).Nodup)
    (a : CampaignAssignment) (ha : a ∈ as) (p : CampaignProgress)
    (hp : findProgress ps a.id = some p) :
    findProgress (as.foldl (progress_step rs uid act bid am now) ps) a.id =
      some (apply_action rs uid act bid am now p) := by
  induction as generalizing ps with
  | nil => cases ha
  | cons b bs ih =>
    rw [List.map_cons, List.nodup_cons] at hnd
    rw [List.foldl_cons]
    rcases List.mem_cons.mp ha with rfl | ha'
    · have hrest : ∀ x ∈ bs, x.id ≠ a.id := by
        intro x hx heq
        exact hnd.1 (heq ▸ List.mem_map_of_mem (fun y => y.id) hx)
      rw [progress_fold_find_untouched _ _ _ _ _ _ _ _ _ hrest]
      exact progress_step_find_self _ _ _ _ _ _ _ _ _ hp
    · have hb : b.id ≠ a.id := by
        intro heq
        exact hnd.1 (heq ▸ List.mem_map_of_mem (fun y => y.id) ha')
      refine ih _ hnd.2 ha' ?_
      rw [progress_step_find_other _ _ _ _ _ _ _ _ _ hb]
      exact hp

/-! ### Sweep lemmas -/

lemma countPair_singleton (a : CampaignAssignment) (uid cid : Nat) :
    countPair [a] uid cid = if a.user_id = uid ∧ a.campaign_id = cid then 1 else 0 := by
  by_cases h : a.user_id = uid ∧ a.campaign_id = cid
  · simp [countPair, List.filter, h.1, h.2, if_pos h]
  · rw [if_neg h]
    have : (a.user_id == uid && a.campaign_id == cid) = false := by
      rcases not_and_or.mp h with h1 | h1 <;> simp [h1]
    simp [countPair, List.filter, this]

lemma sweep_step_countPair (u : User) (db : DB) (c : Campaign) (uid cid : Nat) :
    countPair (sweep_step u db c).assignments uid cid =
      countPair db.assignments uid cid +
        (if eligibleB c = true ∧ countPair db.assignments u.id c.id = 0 ∧ uid = u.id ∧ cid = c.id
         then 1 else 0) := by
  unfold sweep_step
  by_cases he : eligibleB c = true
  · rw [if_pos he]
    by_cases hex : countPair db.assignments u.id c.id = 0
    · have hf : db.assignments.find? (fun a => a.user_id == u.id && a.campaign_id == c.id) = none :=
        (pairFind_none_iff _ _ _).mpr hex
      rw [hf]
      simp only [Option.isSome_none, Bool.false_eq_true, if_false]
      unfold sweepCreate
      dsimp only
      rw [countPair_append, countPair_singleton]
      have : (sweepAssignment u db.nextAssignmentId c).user_id = u.id ∧
             (sweepAssignment u db.nextAssignmentId c).campaign_id = c.id := ⟨rfl, rfl⟩
      by_cases hu : uid = u.id ∧ cid = c.id
      · rw [if_pos (by rw [sweepAssignment]; exact ⟨hu.1.symm, hu.2.symm⟩),
            if_pos ⟨he, hex, hu.1, hu.2⟩]
      · rw [if_neg (by rw [sweepAssignment]; dsimp only; rintro ⟨hh1, hh2⟩; exact hu ⟨hh1.symm, hh2.symm⟩),
            if_neg (by rintro ⟨_, _, hh1, hh2⟩; exact hu ⟨hh1, hh2⟩)]
    · have hf : (db.assignments.find? (fun a => a.user_id == u.id && a.campaign_id == c.id)).isSome = true :=
        (pairFind_isSome_iff _ _ _).mpr hex
      rw [hf]
      simp only [if_true]
      rw [if_neg (by rintro ⟨_, hh, _, _⟩; exact hex hh)]
      omega
  · rw [if_neg he, if_neg (by rintro ⟨hh, _, _, _⟩; exact he hh)]
    omega

lemma sweep_step_campaigns (u : User) (db : DB) (c : Campaign) :
    (sweep_step u db c).campaigns = db.campaigns := by
  unfold sweep_step sweepCreate
  repeat' split
  all_goals rfl

lemma sweep_fold_campaigns (u : User) (cs : List Campaign) (db : DB) :
    (cs.foldl (sweep_step u) db).campaigns = db.campaigns := by
  induction cs generalizing db with
  | nil => rfl
  | cons c cs ih => rw [List.foldl_cons, ih, sweep_step_campaigns]

lemma sweep_step_mem_assignments (u : User) (db : DB) (c : Campaign)
    (x : CampaignAssignment) (hx : x ∈ db.assignments) :
    x ∈ (sweep_step u db c).assignments := by
  unfold sweep_step
  split
  · split
    · exact hx
    · exact List.mem_append_left _ hx
  · exact hx

lemma sweep_step_mem_progresses (u : User) (db : DB) (c : Campaign)
    (x : CampaignProgress) (hx : x ∈ db.progresses) :
    x ∈ (sweep_step u db c).progresses := by
  unfold sweep_step
  split
  · split
    · exact hx
    · exact List.mem_append_left _ hx
  · exact hx

lemma sweep_step_mem_logs (u : User) (db : DB) (c : Campaign)
    (x : RuleEvaluationLog) (hx : x ∈ db.logs) :
    x ∈ (sweep_step u db c).logs := by
  unfold sweep_step
  split
  · split
    · exact hx
    · exact List.mem_append_left _ hx
  · exact hx

lemma sweep_fold_mem_assignments (u : User) (cs : List Campaign) (db : DB)
    (x : CampaignAssignment) (hx : x ∈ db.assignments) :
    x ∈ (cs.foldl (sweep_step u) db).assignments := by
  induction cs generalizing db with
  | nil => exact hx
  | cons c cs ih => rw [List.foldl_cons]; exact ih _ (sweep_step_mem_assignments u db c x hx)

lemma sweep_fold_mem_progresses (u : User) (cs : List Campaign) (db : DB)
    (x : CampaignProgress) (hx : x ∈ db.progresses) :
    x ∈ (cs.foldl (sweep_step u) db).progresses := by
  induction cs generalizing db with
  | nil => exact hx
  | cons c cs ih => rw [List.foldl_cons]; exact ih _ (sweep_step_mem_progresses u db c x hx)

lemma sweep_fold_mem_logs (u : User) (cs : List Campaign) (db : DB)
    (x : RuleEvaluationLog) (hx : x ∈ db.logs) :
    x ∈ (cs.foldl (sweep_step u) db).logs := by
  induction cs generalizing db with
  | nil => exact hx
  | cons c cs ih => rw [List.foldl_cons]; exact ih _ (sweep_step_mem_logs u db c x hx)

lemma sweep_fold_count_other (u : User) (cs : List Campaign) (db : DB) (uid cid : Nat)
    (h : uid ≠ u.id) :
    countPair (cs.foldl (sweep_step u) db).assignments uid cid = countPair db.assignments uid cid := by
  induction cs generalizing db with
  | nil => rfl
  | cons c cs ih =>
    rw [List.foldl_cons, ih, sweep_step_countPair,
        if_neg (by rintro ⟨_, _, hh, _⟩; exact h hh)]
    omega

lemma sweep_fold_count_pos (u : User) (cs : List Campaign) (db : DB) (cid : Nat)
    (h : countPair db.assignments u.id cid ≠ 0) :
    countPair (cs.foldl (sweep_step u) db).assignments u.id cid =
      countPair db.assignments u.id cid := by
  induction cs generalizing db with
  | nil => rfl
  | cons c cs ih =>
    rw [List.foldl_cons]
    have hstep : countPair (sweep_step u db c).assignments u.id cid =
        countPair db.assignments u.id cid := by
      rw [sweep_step_countPair, if_neg (by rintro ⟨_, h0, _, rfl⟩; exact h h0)]
      omega
    rw [ih _ (by rw [hstep]; exact h), hstep]

lemma sweep_fold_count_zero (u : User) (cs : List Campaign) (db : DB) (cid : Nat)
    (h : countPair db.assignments u.id cid = 0) :
    countPair (cs.foldl (sweep_step u) db).assignments u.id cid =
      if ∃ c ∈ cs, eligibleB c = true ∧ c.id = cid then 1 else 0 := by
  induction cs generalizing db with
  | nil => simp [h]
  | cons c cs ih =>
    rw [List.foldl_cons]
    by_cases hc : eligibleB c = true ∧ c.id = cid
    · have hstep : countPair (sweep_step u db c).assignments u.id cid = 1 := by
        rw [sweep_step_countPair, if_pos ⟨hc.1, by rw [hc.2]; exact h, rfl, hc.2.symm⟩, h]
      rw [sweep_fold_count_pos u cs _ cid (by rw [hstep]; exact one_ne_zero), hstep,
          if_pos ⟨c, List.mem_cons_self c cs, hc⟩]
    · have hstep : countPair (sweep_step u db c).assignments u.id cid =
          countPair db.assignments u.id cid := by
        rw [sweep_step_countPair, if_neg (by rintro ⟨h1, _, _, rfl⟩; exact hc ⟨h1, rfl⟩)]
        omega
      rw [ih _ (by rw [hstep]; exact h)]
      have hiff : (∃ x ∈ cs, eligibleB x = true ∧ x.id = cid) ↔
          ∃ x ∈ c :: cs, eligibleB x = true ∧ x.id = cid := by
        constructor
        · rintro ⟨x, hx, hxx⟩
          exact ⟨x, List.mem_cons_of_mem _ hx, hxx⟩
        · rintro ⟨x, hx, hxx⟩
          rcases List.mem_cons.mp hx with rfl | hx'
          · exact absurd hxx hc
          · exact ⟨x, hx', hxx⟩
      exact if_congr hiff rfl rfl

lemma sweep_fold_creates (u : User) (cs : List Campaign) (db : DB) (cid : Nat)
    (hex : ∃ c ∈ cs, eligibleB c = true ∧ c.id = cid)
    (h0 : countPair db.assignments u.id cid = 0) :
    ∃ a ∈ (cs.foldl (sweep_step u) db).assignments,
      a.user_id = u.id ∧ a.campaign_id = cid ∧ a.assigned_by_rule_engine = true ∧
      (∃ p ∈ (cs.foldl (sweep_step u) db).progresses, p = freshProgress a.id u.id cid) ∧
      (∃ l ∈ (cs.foldl (sweep_step u) db).logs,
        l.user_id = u.id ∧ l.campaign_id = cid ∧ l.rule_result = []) := by
  induction cs generalizing db with
  | nil => simp at hex
  | cons c cs ih =>
    rw [List.foldl_cons]
    by_cases hc : eligibleB c = true ∧ c.id = cid
    · have hf : db.assignments.find? (fun a => a.user_id == u.id && a.campaign_id == c.id) = none :=
        (pairFind_none_iff _ _ _).mpr (by rw [hc.2]; exact h0)
      have hstep : sweep_step u db c = sweepCreate u db c := by
        unfold sweep_step
        rw [if_pos hc.1, hf]
        simp
      rw [hstep]
      refine ⟨sweepAssignment u db.nextAssignmentId c, ?_, rfl, hc.2, rfl, ?_, ?_⟩
      · exact sweep_fold_mem_assignments u cs _ _
          (List.mem_append_right _ (List.mem_singleton_self _))
      · refine ⟨freshProgress db.nextAssignmentId u.id c.id, ?_, ?_⟩
        · exact sweep_fold_mem_progresses u cs _ _
            (List.mem_append_right _ (List.mem_singleton_self _))
        · rw [hc.2]
          rfl
      · refine ⟨{ user_id := u.id, campaign_id := c.id, rule_result := [] }, ?_, rfl, hc.2, rfl⟩
        exact sweep_fold_mem_logs u cs _ _
          (List.mem_append_right _ (List.mem_singleton_self _))
    · have hstep0 : countPair (sweep_step u db c).assignments u.id cid = 0 := by
        rw [sweep_step_countPair, if_neg (by rintro ⟨h1, _, _, rfl⟩; exact hc ⟨h1, rfl⟩), h0]
      have hex' : ∃ c' ∈ cs, eligibleB c' = true ∧ c'.id = cid := by
        rcases hex with ⟨x, hx, hxx⟩
        rcases List.mem_cons.mp hx with rfl | hx'
        · exact absurd hxx hc
        · exact ⟨x, hx', hxx⟩
      exact ih _ hex' hstep0

lemma sweep_fold_new (u : User) (cs : List Campaign) (db : DB) :
    ∀ a ∈ (cs.foldl (sweep_step u) db).assignments, a ∉ db.assignments →
      a.user_id = u.id ∧ a.assigned_by_rule_engine = true ∧
      ∃ c ∈ cs, a.campaign_id = c.id ∧ eligibleB c = true ∧
        countPair db.assignments u.id c.id = 0 := by
  induction cs generalizing db with
  | nil => exact fun a ha hna => absurd ha hna
  | cons c cs ih =>
    intro a ha hna
    rw [List.foldl_cons] at ha
    by_cases hmem : a ∈ (sweep_step u db c).assignments
    · unfold sweep_step at hmem
      by_cases he : eligibleB c = true
      · rw [if_pos he] at hmem
        by_cases hf : (db.assignments.find? (fun x => x.user_id == u.id && x.campaign_id == c.id)).isSome = true
        · rw [if_pos hf] at hmem
          exact absurd hmem hna
        · rw [if_neg hf] at hmem
          have hf' : db.assignments.find? (fun x => x.user_id == u.id && x.campaign_id == c.id) = none :=
            Option.not_isSome_iff_eq_none.mp hf
          unfold sweepCreate at hmem
          dsimp only at hmem
          rcases List.mem_append.mp hmem with h1 | h2
          · exact absurd h1 hna
          · have heq : a = sweepAssignment u db.nextAssignmentId c := List.mem_singleton.mp h2
            subst heq
            exact ⟨rfl, rfl, c, List.mem_cons_self c cs, rfl, he, (pairFind_none_iff _ _ _).mp hf'⟩
      · rw [if_neg he] at hmem
        exact absurd hmem hna
    · obtain ⟨h1, h2, c', hc', hcid, he', h0'⟩ := ih (sweep_step u db c) a ha hmem
      refine ⟨h1, h2, c', List.mem_cons_of_mem _ hc', hcid, he', ?_⟩
      have hle : countPair db.assignments u.id c'.id ≤
          countPair (sweep_step u db c).assignments u.id c'.id := by
        rw [sweep_step_countPair]
        split_ifs <;> omega
      omega

/-! ### Claim theorems -/

/-- Claim C4: evaluation of the code at the failing input.  `exDB` holds no
reservation at all, so the reservation created here is the user's first ever
reservation at business 5; the claim says `businesses_visited` must become 1.
The code commits the new reservation before `update_campaign_progress` runs,
so the prior-reservation query finds the reservation just created and
`businesses_visited` stays 0 while `reservations_made` becomes 1. -/
theorem create_reservation_first_visit_not_counted :
    exDB.reservations = [] ∧
    (match create_reservation exDB exUser 5 100 2 none 50 with
     | .ok (_, db1) =>
        (findProgress db1.progresses exAssignment.id).map
          (fun p => (p.reservations_made, p.businesses_visited))
     | .error _ => none) = some (1, 0) := by
  exact ⟨rfl, rfl⟩

/-- Claim C9: for a reservation owned by the requesting user and in a
cancellable status, cancellation succeeds exactly when strictly more than one
hour remains before `reservation_time`, and is rejected with the one-hour
error otherwise. -/
theorem user_cancel_reservation_one_hour_cutoff (db : DB) (rid : Nat) (u : User) (now : Int)
    (r : Reservation)
    (hr : db.reservations.find? (fun x => x.id == rid && x.user_id == u.id) = some r)
    (h1 : r.status ≠ .cancelled) (h2 : r.status ≠ .completed) (h3 : r.status ≠ .rejected) :
    (now + 60 < r.reservation_time →
      user_cancel_reservation db rid u now =
        .ok { db with reservations := replaceFirst (fun x => x.id == rid && x.user_id == u.id) ({ r with status := .cancelled }) db.reservations }) ∧
    (r.reservation_time ≤ now + 60 →
      user_cancel_reservation db rid u now = .error .tooLateToCancel) := by
  unfold user_cancel_reservation
  rw [hr]
  dsimp only
  rw [if_neg h1, if_neg (by rintro (h | h); exacts [h2 h, h3 h])]
  constructor
  · intro h
    rw [if_neg (by omega)]
  · intro h
    rw [if_pos (by omega)]

/-- Claim C9 witness: a reservation 61 minutes away is cancellable; one 59
minutes away is rejected. -/
theorem user_cancel_reservation_one_hour_cutoff_witness :
    user_cancel_reservation exDBr61 1 exUser 0 =
      .ok { exDBr61 with reservations := replaceFirst (fun x => x.id == 1 && x.user_id == exUser.id) ({ exReservation61 with status := .cancelled }) exDBr61.reservations } ∧
    user_cancel_reservation exDBr59 1 exUser 0 = .error .tooLateToCancel := by
  constructor
  · exact (user_cancel_reservation_one_hour_cutoff exDBr61 1 exUser 0 exReservation61 rfl
      (by decide) (by decide) (by decide)).1 (by decide)
  · exact (user_cancel_reservation_one_hour_cutoff exDBr59 1 exUser 0 exReservation59 rfl
      (by decide) (by decide) (by decide)).2 (by decide)

/-- Claim C5: `use_campaign` fails with the assignment-not-found error when no
assignment has the requested id and the requesting user, and fails with the
already-used error when the campaign is single-use and the assignment's
`is_used` flag is set; both are raised before any write, so no token is
returned or minted. -/
theorem use_campaign_not_found_or_already_used (db : DB) (assignment_id : Nat) (u : User)
    (now : Int) (fresh : String) :
    ((∀ a ∈ db.assignments, ¬(a.id = assignment_id ∧ a.user_id = u.id)) →
      use_campaign db assignment_id u now fresh = .error .assignmentNotFound) ∧
    (∀ a c, db.assignments.find? (fun x => x.id == assignment_id && x.user_id == u.id) = some a →
      findCampaign db.campaigns a.campaign_id = some c →
      c.is_single_use = true → a.is_used = true →
      use_campaign db assignment_id u now fresh = .error .alreadyUsed) := by
  constructor
  · intro h
    have hfind : db.assignments.find? (fun x => x.id == assignment_id && x.user_id == u.id) = none := by
      rw [List.find?_eq_none]
      intro x hx hpx
      simp only [Bool.and_eq_true, beq_iff_eq] at hpx
      exact h x hx hpx
    unfold use_campaign
    rw [hfind]
  · intro a c hfa hfc hcs hau
    unfold use_campaign
    rw [hfa]
    dsimp only
    rw [hfc]
    dsimp only
    rw [if_pos (by rw [hcs, hau]; rfl)]

/-- Claim C5 witness: an unknown assignment id errors with not-found; a used
assignment of a single-use campaign errors with already-used. -/
theorem use_campaign_not_found_or_already_used_witness :
    use_campaign exDBempty 5 exUser 0 "f" = .error .assignmentNotFound ∧
    use_campaign exDBused 1 exUser 0 "f" = .error .alreadyUsed := by
  constructor
  · exact (use_campaign_not_found_or_already_used exDBempty 5 exUser 0 "f").1
      (by intro a ha; cases ha)
  · exact (use_campaign_not_found_or_already_used exDBused 1 exUser 0 "f").2
      exUsedAssignment exCampaign rfl rfl rfl rfl

/-- Claim C8: when the user has no assignment for the campaign, or an
assignment without a progress row, `evaluate_campaign_rules` returns the
campaign's criteria keys each mapped to `false` — a result, not an error (the
source function only queries and writes nothing). -/
theorem evaluate_campaign_rules_all_false_without_progress (u : User) (c : Campaign) (db : DB) :
    ((db.assignments.find? (fun a => a.user_id == u.id && a.campaign_id == c.id) = none →
      evaluate_campaign_rules u c db = c.criteria_json.map (fun kv => (kv.1, false))) ∧
     (∀ a, db.assignments.find? (fun a => a.user_id == u.id && a.campaign_id == c.id) = some a →
      findProgress db.progresses a.id = none →
      evaluate_campaign_rules u c db = c.criteria_json.map (fun kv => (kv.1, false)))) := by
  constructor
  · intro h
    unfold evaluate_campaign_rules
    rw [h]
  · intro a ha hp
    unfold evaluate_campaign_rules
    rw [ha]
    dsimp only
    rw [hp]

/-- Claim C8 witness: with no assignment, the single criterion of the example
campaign evaluates to `false`. -/
theorem evaluate_campaign_rules_all_false_without_progress_witness :
    evaluate_campaign_rules exUser exCampaign exDBempty =
      exCampaign.criteria_json.map (fun kv => (kv.1, false)) :=
  (evaluate_campaign_rules_all_false_without_progress exUser exCampaign exDBempty).1 rfl

/-- Claim C1: for an assignment that passes the existence and already-used
checks, `use_campaign` is idempotent within the token validity window — a held
(non-empty) token whose expiry is strictly in the future is returned unchanged
with no write — and otherwise (no token, or expiry not in the future) a fresh
token is minted with expiry `now + usage_duration_minutes` of the campaign. -/
theorem use_campaign_idempotent_within_window (db : DB) (assignment_id : Nat) (u : User)
    (now : Int) (fresh : String) (a : CampaignAssignment) (c : Campaign)
    (ha : db.assignments.find? (fun x => x.id == assignment_id && x.user_id == u.id) = some a)
    (hc : findCampaign db.campaigns a.campaign_id = some c)
    (hnu : ¬(c.is_single_use = true ∧ a.is_used = true)) :
    (∀ t e, a.qr_token = some t → t ≠ "" → a.qr_expires_at = some e → now < e →
      use_campaign db assignment_id u now fresh = .ok ((t, e), db)) ∧
    ((¬∃ t e, a.qr_token = some t ∧ t ≠ "" ∧ a.qr_expires_at = some e ∧ now < e) →
      use_campaign db assignment_id u now fresh =
        .ok ((fresh, now + c.usage_duration_minutes),
          { db with assignments := replaceFirst (fun x => x.id == a.id) ({ a with qr_token := some fresh, qr_expires_at := some (now + c.usage_duration_minutes) }) db.assignments })) := by
  have hused : (c.is_single_use && a.is_used) = false := by
    cases hcs : c.is_single_use <;> cases hau : a.is_used <;> simp_all
  constructor
  · intro t e ht hte he hlt
    unfold use_campaign
    rw [ha]
    dsimp only
    rw [hc]
    dsimp only
    rw [if_neg (by rw [hused]; exact Bool.false_ne_true), ht, he]
    dsimp only
    rw [if_pos ⟨hte, hlt⟩]
  · intro hno
    unfold use_campaign
    rw [ha]
    dsimp only
    rw [hc]
    dsimp only
    rw [if_neg (by rw [hused]; exact Bool.false_ne_true)]
    cases ht : a.qr_token with
    | none =>
      cases he : a.qr_expires_at with
      | none => rfl
      | some e => rfl
    | some t =>
      cases he : a.qr_expires_at with
      | none => rfl
      | some e =>
        dsimp only
        rw [if_neg (fun hcond => hno ⟨t, e, ht, hcond.1, he, hcond.2⟩)]

/-- Claim C1 witness: a token `"tok"` expiring at 60 requested again at 50 is
returned unchanged together with the unchanged session. -/
theorem use_campaign_idempotent_within_window_witness :
    use_campaign exDBtok 1 exUser 50 "fresh2" = .ok (("tok", 60), exDBtok) :=
  (use_campaign_idempotent_within_window exDBtok 1 exUser 50 "fresh2" exTokenAssignment
    exCampaign rfl rfl (by decide)).1 "tok" 60 rfl (by decide) rfl (by decide)

/-- Claim C7: `update_campaign_progress` touches exactly the requesting
user's unused assignments whose campaign is active with the validity window
containing now: on each touched row a comment adds 1 to `comments_made`, a
purchase with an amount adds the amount to `total_spend`, and `last_updated`
is set to now; rows of excluded assignments are unchanged. -/
theorem update_campaign_progress_comment_and_purchase (db : DB) (uid : Nat) (now : Int)
    (amt : Int) (hids : (db.assignments.map (fun a => a.id)).Nodup) :
    (∀ a ∈ db.assignments, is_active_assignment db.campaigns now uid a = true →
      ∀ p, findProgress db.progresses a.id = some p →
        findProgress (update_campaign_progress db uid "comment" none none now).progresses a.id =
          some { p with comments_made := p.comments_made + 1, last_updated := some now }) ∧
    (∀ a ∈ db.assignments, is_active_assignment db.campaigns now uid a = true →
      ∀ p, findProgress db.progresses a.id = some p →
        findProgress (update_campaign_progress db uid "purchase" none (some amt) now).progresses a.id =
          some { p with total_spend := p.total_spend + amt, last_updated := some now }) ∧
    (∀ a ∈ db.assignments, is_active_assignment db.campaigns now uid a = false →
      findProgress (update_campaign_progress db uid "comment" none none now).progresses a.id =
        findProgress db.progresses a.id ∧
      findProgress (update_campaign_progress db uid "purchase" none (some amt) now).progresses a.id =
        findProgress db.progresses a.id) := by
  have hupd : ∀ act bid am, (update_campaign_progress db uid act bid am now).progresses =
      (db.assignments.filter (is_active_assignment db.campaigns now uid)).foldl
        (progress_step db.reservations uid act bid am now) db.progresses := fun _ _ _ => rfl
  have hnd : ((db.assignments.filter (is_active_assignment db.campaigns now uid)).map
      (fun a => a.id)).Nodup :=
    ((List.filter_sublist _).map _).nodup hids
  have huntouched : ∀ a ∈ db.assignments, is_active_assignment db.campaigns now uid a = false →
      ∀ b ∈ db.assignments.filter (is_active_assignment db.campaigns now uid), b.id ≠ a.id := by
    intro a ha hact b hb heq
    have hbm := List.mem_filter.mp hb
    have hba : b = a := List.inj_on_of_nodup_map hids hbm.1 ha heq
    rw [hba, hact] at hbm
    exact Bool.false_ne_true hbm.2
  refine ⟨?_, ?_, ?_⟩
  · intro a ha hact p hp
    rw [hupd, progress_fold_find_touched _ _ _ _ _ _ _ _ hnd a
      (List.mem_filter.mpr ⟨ha, hact⟩) p hp, apply_action_comment]
  · intro a ha hact p hp
    rw [hupd, progress_fold_find_touched _ _ _ _ _ _ _ _ hnd a
      (List.mem_filter.mpr ⟨ha, hact⟩) p hp, apply_action_purchase_amount]
  · intro a ha hact
    constructor
    · rw [hupd, progress_fold_find_untouched _ _ _ _ _ _ _ _ _ (huntouched a ha hact)]
    · rw [hupd, progress_fold_find_untouched _ _ _ _ _ _ _ _ _ (huntouched a ha hact)]

/-- Claim C7 witness: on the example session at time 50, a comment raises
`comments_made` of the single active assignment's progress row to 1 and stamps
`last_updated`. -/
theorem update_campaign_progress_comment_and_purchase_witness :
    findProgress (update_campaign_progress exDB 1 "comment" none none 50).progresses 1 =
      some { exProgress with comments_made := 1, last_updated := some 50 } :=
  (update_campaign_progress_comment_and_purchase exDB 1 50 0 (by decide)).1
    exAssignment (List.mem_singleton_self _) (by decide) exProgress rfl

/-- Claim C10: an action type other than comment, reservation or purchase —
and likewise a purchase with no amount — changes no counter of any progress
row, yet still stamps `last_updated` on the progress row of every matching
active assignment; the result is committed (returned session), and rows of
excluded assignments are unchanged. -/
theorem update_campaign_progress_unrecognized_noop (db : DB) (uid : Nat) (now : Int)
    (act : String) (bid : Option Nat) (am : Option Int)
    (hids : (db.assignments.map (fun a => a.id)).Nodup)
    (h1 : act ≠ "comment") (h2 : act ≠ "reservation") (h3 : act ≠ "purchase") :
    (∀ a ∈ db.assignments, is_active_assignment db.campaigns now uid a = true →
      ∀ p, findProgress db.progresses a.id = some p →
        findProgress (update_campaign_progress db uid act bid am now).progresses a.id =
          some { p with last_updated := some now } ∧
        findProgress (update_campaign_progress db uid "purchase" bid none now).progresses a.id =
          some { p with last_updated := some now }) ∧
    (∀ a ∈ db.assignments, is_active_assignment db.campaigns now uid a = false →
      findProgress (update_campaign_progress db uid act bid am now).progresses a.id =
        findProgress db.progresses a.id ∧
      findProgress (update_campaign_progress db uid "purchase" bid none now).progresses a.id =
        findProgress db.progresses a.id) := by
  have hupd : ∀ act' bid' am', (update_campaign_progress db uid act' bid' am' now).progresses =
      (db.assignments.filter (is_active_assignment db.campaigns now uid)).foldl
        (progress_step db.reservations uid act' bid' am' now) db.progresses := fun _ _ _ => rfl
  have hnd : ((db.assignments.filter (is_active_assignment db.campaigns now uid)).map
      (fun a => a.id)).Nodup :=
    ((List.filter_sublist _).map _).nodup hids
  have huntouched : ∀ a ∈ db.assignments, is_active_assignment db.campaigns now uid a = false →
      ∀ b ∈ db.assignments.filter (is_active_assignment db.campaigns now uid), b.id ≠ a.id := by
    intro a ha hact b hb heq
    have hbm := List.mem_filter.mp hb
    have hba : b = a := List.inj_on_of_nodup_map hids hbm.1 ha heq
    rw [hba, hact] at hbm
    exact Bool.false_ne_true hbm.2
  constructor
  · intro a ha hact p hp
    constructor
    · rw [hupd, progress_fold_find_touched _ _ _ _ _ _ _ _ hnd a
        (List.mem_filter.mpr ⟨ha, hact⟩) p hp,
        apply_action_unrecognized _ _ _ _ _ _ _ h1 h2 h3]
    · rw [hupd, progress_fold_find_touched _ _ _ _ _ _ _ _ hnd a
        (List.mem_filter.mpr ⟨ha, hact⟩) p hp, apply_action_purchase_no_amount]
  · intro a ha hact
    constructor
    · rw [hupd, progress_fold_find_untouched _ _ _ _ _ _ _ _ _ (huntouched a ha hact)]
    · rw [hupd, progress_fold_find_untouched _ _ _ _ _ _ _ _ _ (huntouched a ha hact)]

/-- Claim C10 witness: the unrecognized action `"like"` leaves every counter
of the active assignment's progress row at 0 but stamps `last_updated`. -/
theorem update_campaign_progress_unrecognized_noop_witness :
    findProgress (update_campaign_progress exDB 1 "like" none none 50).progresses 1 =
      some { exProgress with last_updated := some 50 } :=
  ((update_campaign_progress_unrecognized_noop exDB 1 50 "like" none none (by decide)
    (by decide) (by decide) (by decide)).1
    exAssignment (List.mem_singleton_self _) (by decide) exProgress rfl).1

lemma eligibleB_iff (c : Campaign) :
    eligibleB c = true ↔ c.rule_type = "dynamic" ∧ c.is_active = true := by
  simp [eligibleB]

/-- Claim C3: the sweep creates an assignment (rule-engine flagged, with a
fresh progress row and an empty evaluation-log entry) for each active dynamic
campaign the user lacks an assignment for, creates assignments only for such
campaigns, and run twice in sequence leaves exactly one assignment per
(user, campaign) pair for every active dynamic campaign. -/
theorem assign_eligible_campaigns_idempotent (db : DB) (u : User)
    (hinv : ∀ cid, countPair db.assignments u.id cid ≤ 1) :
    (∀ c ∈ db.campaigns, c.rule_type = "dynamic" → c.is_active = true →
      countPair db.assignments u.id c.id = 0 →
      ∃ a ∈ (assign_eligible_campaigns u db).assignments,
        a.user_id = u.id ∧ a.campaign_id = c.id ∧ a.assigned_by_rule_engine = true ∧
        (∃ p ∈ (assign_eligible_campaigns u db).progresses, p = freshProgress a.id u.id c.id) ∧
        (∃ l ∈ (assign_eligible_campaigns u db).logs,
          l.user_id = u.id ∧ l.campaign_id = c.id ∧ l.rule_result = [])) ∧
    (∀ a ∈ (assign_eligible_campaigns u db).assignments, a ∉ db.assignments →
      a.user_id = u.id ∧ a.assigned_by_rule_engine = true ∧
      ∃ c ∈ db.campaigns, a.campaign_id = c.id ∧ c.rule_type = "dynamic" ∧ c.is_active = true ∧
        countPair db.assignments u.id c.id = 0) ∧
    (∀ c ∈ db.campaigns, c.rule_type = "dynamic" → c.is_active = true →
      countPair (assign_eligible_campaigns u (assign_eligible_campaigns u db)).assignments
        u.id c.id = 1) := by
  refine ⟨?_, ?_, ?_⟩
  · intro c hc hdyn hact h0
    exact sweep_fold_creates u db.campaigns db c.id
      ⟨c, hc, (eligibleB_iff c).mpr ⟨hdyn, hact⟩, rfl⟩ h0
  · intro a ha hna
    obtain ⟨h1, h2, c, hc, hcid, he, h0⟩ := sweep_fold_new u db.campaigns db a ha hna
    exact ⟨h1, h2, c, hc, hcid, ((eligibleB_iff c).mp he).1, ((eligibleB_iff c).mp he).2, h0⟩
  · intro c hc hdyn hact
    have he : eligibleB c = true := (eligibleB_iff c).mpr ⟨hdyn, hact⟩
    show countPair ((assign_eligible_campaigns u db).campaigns.foldl (sweep_step u)
      (assign_eligible_campaigns u db)).assignments u.id c.id = 1
    rw [show (assign_eligible_campaigns u db).campaigns = db.campaigns from
      sweep_fold_campaigns u db.campaigns db]
    by_cases h0 : countPair db.assignments u.id c.id = 0
    · have h1 : countPair (assign_eligible_campaigns u db).assignments u.id c.id = 1 := by
        rw [show assign_eligible_campaigns u db = db.campaigns.foldl (sweep_step u) db from rfl,
          sweep_fold_count_zero u _ _ _ h0, if_pos ⟨c, hc, he, rfl⟩]
      rw [sweep_fold_count_pos u _ _ _ (by rw [h1]; exact one_ne_zero), h1]
    · have h1 : countPair db.assignments u.id c.id = 1 := by
        have := hinv c.id
        omega
      have h1' : countPair (assign_eligible_campaigns u db).assignments u.id c.id = 1 := by
        rw [show assign_eligible_campaigns u db = db.campaigns.foldl (sweep_step u) db from rfl,
          sweep_fold_count_pos u _ _ _ h0, h1]
      rw [sweep_fold_count_pos u _ _ _ (by rw [h1']; exact one_ne_zero), h1']

/-- Claim C3 witness: on a session with no assignment, two sweeps leave
exactly one assignment for the (user, campaign) pair of the example dynamic
campaign. -/
theorem assign_eligible_campaigns_idempotent_witness :
    countPair (assign_eligible_campaigns exUser
      (assign_eligible_campaigns exUser exDBempty)).assignments 1 1 = 1 :=
  (assign_eligible_campaigns_idempotent exDBempty exUser (fun _ => Nat.zero_le 1)).2.2
    exCampaign (List.mem_singleton_self _) rfl rfl

/-- Claim C6: admin-driven manual assignment fails with campaign-not-found or
user-not-found on an invalid reference, fails with the duplicate error when
the (user, campaign) assignment already exists, and otherwise creates exactly
one assignment (not rule-engine flagged) together with its fresh progress row
in the same transaction, preserving the every-assignment-has-a-progress-row
invariant. -/
theorem manually_assign_campaign_spec (db : DB) (campaign_id user_id : Nat) (cu : User)
    (hadmin : cu.is_admin = true) :
    (findCampaign db.campaigns campaign_id = none →
      manually_assign_campaign db campaign_id user_id cu = .error .campaignNotFound) ∧
    (∀ c, findCampaign db.campaigns campaign_id = some c →
      db.users.find? (fun x => x.id == user_id) = none →
      manually_assign_campaign db campaign_id user_id cu = .error .userNotFound) ∧
    (∀ c usr, findCampaign db.campaigns campaign_id = some c →
      db.users.find? (fun x => x.id == user_id) = some usr →
      (∃ a ∈ db.assignments, a.user_id = user_id ∧ a.campaign_id = campaign_id) →
      manually_assign_campaign db campaign_id user_id cu = .error .duplicateAssignment) ∧
    (∀ c usr, findCampaign db.campaigns campaign_id = some c →
      db.users.find? (fun x => x.id == user_id) = some usr →
      (∀ a ∈ db.assignments, ¬(a.user_id = user_id ∧ a.campaign_id = campaign_id)) →
      (∀ p ∈ db.progresses, p.assignment_id ≠ db.nextAssignmentId) →
      manually_assign_campaign db campaign_id user_id cu =
        .ok (db.nextAssignmentId, manualAssignedDB db campaign_id user_id) ∧
      ((∀ a ∈ db.assignments, ∃ p ∈ db.progresses, p.assignment_id = a.id) →
        ∀ a ∈ (manualAssignedDB db campaign_id user_id).assignments,
          ∃ p ∈ (manualAssignedDB db campaign_id user_id).progresses,
            p.assignment_id = a.id)) := by
  have hadm : ¬((!cu.is_admin) = true) := by
    rw [hadmin]
    exact Bool.false_ne_true
  refine ⟨?_, ?_, ?_, ?_⟩
  · intro h
    unfold manually_assign_campaign
    rw [if_neg hadm, h]
  · intro c hcf hu
    unfold manually_assign_campaign
    rw [if_neg hadm, hcf]
    dsimp only
    rw [hu]
  · intro c usr hcf hu hex
    have hfs : (db.assignments.find?
        (fun a => a.user_id == user_id && a.campaign_id == campaign_id)).isSome = true := by
      rw [pairFind_isSome_iff]
      intro h0
      rcases hex with ⟨a, ha, h1, h2⟩
      exact (countPair_eq_zero_iff _ _ _).mp h0 a ha ⟨h1, h2⟩
    unfold manually_assign_campaign
    rw [if_neg hadm, hcf]
    dsimp only
    rw [hu]
    dsimp only
    rw [if_pos hfs]
  · intro c usr hcf hu hnone hfresh
    have hf0 : db.assignments.find?
        (fun a => a.user_id == user_id && a.campaign_id == campaign_id) = none :=
      (pairFind_none_iff _ _ _).mpr ((countPair_eq_zero_iff _ _ _).mpr hnone)
    have hpf : findProgress db.progresses db.nextAssignmentId = none := by
      rw [findProgress, List.find?_eq_none]
      intro p hp
      simp [hfresh p hp]
    constructor
    · unfold manually_assign_campaign
      rw [if_neg hadm, hcf]
      dsimp only
      rw [hu]
      dsimp only
      rw [hf0]
      simp only [Option.isSome_none, Bool.false_eq_true, if_false]
      unfold create_progress_for_assignment
      dsimp only
      rw [show findProgress db.progresses (manualAssignment db campaign_id user_id).id = none
        from hpf]
      rfl
    · intro hall a hamem
      unfold manualAssignedDB at hamem ⊢
      dsimp only at hamem ⊢
      rcases List.mem_append.mp hamem with hold | hnew
      · obtain ⟨p, hp, hpe⟩ := hall a hold
        exact ⟨p, List.mem_append_left _ hp, hpe⟩
      · have heq : a = manualAssignment db campaign_id user_id := List.mem_singleton.mp hnew
        subst heq
        exact ⟨freshProgress db.nextAssignmentId user_id campaign_id,
          List.mem_append_right _ (List.mem_singleton_self _), rfl⟩

/-- Claim C6 witness: assigning the example campaign to the example user on a
session with no assignments succeeds and returns the combined
assignment-plus-progress session. -/
theorem manually_assign_campaign_spec_witness :
    manually_assign_campaign exDBempty 1 1 exAdmin = .ok (1, manualAssignedDB exDBempty 1 1) :=
  ((manually_assign_campaign_spec exDBempty 1 1 exAdmin rfl).2.2.2 exCampaign exUser rfl rfl
    (by intro a ha; cases ha) (by intro p hp; cases hp)).1

/-- Claim C2: the spec-modelled `consume_token` fails with token-not-found
when no assignment holds the token, with token-expired when now is past the
expiry regardless of `is_used`, with business-not-allowed when the campaign
restricts businesses and the redeeming business is not among them, and on
success records a `CampaignUsage` row and, for a single-use campaign, marks
the assignment used (after which `use_campaign` refuses further tokens, by
claim C5). -/
theorem consume_token_spec (db : DB) (token : String) (business_id : Nat) (now : Int) :
    ((∀ a ∈ db.assignments, a.qr_token ≠ some token) →
      consume_token db token business_id now = .error .tokenNotFound) ∧
    (∀ a c e, db.assignments.find? (fun x => x.qr_token == some token) = some a →
      findCampaign db.campaigns a.campaign_id = some c →
      a.qr_expires_at = some e → e < now →
      consume_token db token business_id now = .error .tokenExpired) ∧
    (∀ a c e, db.assignments.find? (fun x => x.qr_token == some token) = some a →
      findCampaign db.campaigns a.campaign_id = some c →
      a.qr_expires_at = some e → now ≤ e →
      c.allowed_business_ids ≠ [] → business_id ∉ c.allowed_business_ids →
      consume_token db token business_id now = .error .businessNotAllowed) ∧
    (∀ a c e, db.assignments.find? (fun x => x.qr_token == some token) = some a →
      findCampaign db.campaigns a.campaign_id = some c →
      a.qr_expires_at = some e → now ≤ e →
      (c.allowed_business_ids = [] ∨ business_id ∈ c.allowed_business_ids) →
      ∃ db1, consume_token db token business_id now = .ok db1 ∧
        db1.usages = db.usages ++ [{ user_id := a.user_id, assignment_id := a.id, business_id := business_id, used_at := now }] ∧
        (c.is_single_use = true → ∃ a1 ∈ db1.assignments, a1.id = a.id ∧ a1.is_used = true)) := by
  refine ⟨?_, ?_, ?_, ?_⟩
  · intro h
    have hfind : db.assignments.find? (fun x => x.qr_token == some token) = none := by
      rw [List.find?_eq_none]
      intro x hx hpx
      exact h x hx (by simpa using hpx)
    unfold consume_token
    rw [hfind]
  · intro a c e hfa hfc he hlt
    unfold consume_token
    rw [hfa]
    dsimp only
    rw [hfc]
    dsimp only
    rw [he]
    dsimp only
    rw [if_pos (decide_eq_true (by omega))]
  · intro a c e hfa hfc he hle hne hnm
    unfold consume_token
    rw [hfa]
    dsimp only
    rw [hfc]
    dsimp only
    rw [he]
    dsimp only
    rw [if_neg (by rw [decide_eq_false (by omega)]; exact Bool.false_ne_true),
        if_pos ⟨hne, hnm⟩]
  · intro a c e hfa hfc he hle hallow
    have hnot : ¬(c.allowed_business_ids ≠ [] ∧ business_id ∉ c.allowed_business_ids) := by
      rintro ⟨hne, hnm⟩
      rcases hallow with h | h
      · exact hne h
      · exact hnm h
    have hamem : a ∈ db.assignments := List.mem_of_find?_eq_some hfa
    unfold consume_token
    rw [hfa]
    dsimp only
    rw [hfc]
    dsimp only
    have hexp : (match a.qr_expires_at with
                 | some x => decide (now > x)
                 | none => true) = false := by
      rw [he]
      exact decide_eq_false (by omega)
    rw [if_neg (by rw [hexp]; exact Bool.false_ne_true), if_neg hnot]
    by_cases hsu : c.is_single_use = true
    · rw [if_pos hsu]
      refine ⟨_, rfl, rfl, fun _ => ?_⟩
      refine ⟨{ a with is_used := true }, ?_, rfl, rfl⟩
      exact mem_replaceFirst_self (fun x => x.id == a.id) ({ a with is_used := true })
        db.assignments ⟨a, hamem, beq_self_eq_true a.id⟩
    · rw [if_neg hsu]
      exact ⟨_, rfl, rfl, fun h => absurd h hsu⟩

/-- Claim C2 witness: consuming the valid token of the single-use example
campaign at an allowed business records a usage row and marks the assignment
used. -/
theorem consume_token_spec_witness :
    ∃ db1, consume_token exDBtok "tok" 5 50 = .ok db1 ∧
      db1.usages = exDBtok.usages ++ [{ user_id := 1, assignment_id := 1, business_id := 5, used_at := 50 }] ∧
      (exCampaign.is_single_use = true → ∃ a1 ∈ db1.assignments, a1.id = 1 ∧ a1.is_used = true) :=
  (consume_token_spec exDBtok "tok" 5 50).2.2.2 exTokenAssignment exCampaign 60 rfl rfl rfl
    (by decide) (Or.inl rfl)

end Mekankolik
